import Mathlib

/-!
Shallow embedding of the audio segmentation and feature-classification core of
`backend/server.py` (function `analyze_audio_file`, lines 67-183), together with
theorems settling the specification claims about it.

Modelling conventions:
* Python floats are modelled as exact rationals; binary floating-point rounding
  artifacts are not modelled.
* The extractor (librosa) is a black box per the spec: its output is the record
  `Extracted` holding the waveform length `len(y)`, the converted `tempo`, the
  beat timestamps and the RMS energy curve.  `librosa.load` fixes `sr = 22050`
  and `duration = librosa.get_duration(y=y, sr=sr) = len(y) / sr`.
* A failing extraction (any exception inside the `try` block before the body
  runs) is modelled as the `.error` branch of an `Except String Extracted`
  input; the two internal exceptions that can still fire after successful
  extraction (division by zero when the RMS curve is empty, and the NameError
  on `max_rms` when the segment loop body never runs) are modelled inside
  `analyzeExtracted`.
* `np.std` involves a real square root, irrational in general; since no claim
  depends on its numeric value it is kept symbolic in `StdExpr`.
* Python `int(x)` on a non-negative value truncates, i.e. takes the floor.
* Python `round(x, n)` rounds half to even; `pyRound` implements this on the
  exact rational value.
-/

namespace LyricSinMotion

/-- Sample rate fixed by `librosa.load(file_path, sr=22050)`. -/
def sr : ℚ := 22050

/-- Fixed block length in seconds: `segment_duration = 8.0` (line 96). -/
def segment_duration : ℚ := 8

/-- Output of the feature extractor (spec section 2: a trusted black box): the
loaded waveform length `len(y)`, the tempo after the float conversion at lines
87-90, the beat timestamps `beat_times` and the RMS energy curve `rms`. -/
structure Extracted where
  yLen : ℕ
  tempo : ℚ
  beat_times : List ℚ
  rms : List ℚ
deriving Repr, DecidableEq

/-- Track length in seconds:
`duration = librosa.get_duration(y=y, sr=sr) = len(y) / sr` (line 80). -/
def duration (e : Extracted) : ℚ := e.yLen / sr

/-- Block count: `num_segments = int(np.ceil(duration / segment_duration))`
(line 97). -/
def num_segments (e : Extracted) : ℕ := (⌈duration e / segment_duration⌉).toNat

/-- Block start: `start_time = i * segment_duration` (line 104). -/
def start_time (i : ℕ) : ℚ := i * segment_duration

/-- Block end: `end_time = min((i + 1) * segment_duration, duration)`
(line 105). -/
def end_time (e : Extracted) (i : ℕ) : ℚ :=
  min ((i + 1) * segment_duration) (duration e)

/-- Sample index: `start_sample = int(start_time * sr)` (line 108). -/
def start_sample (i : ℕ) : ℕ := (⌊start_time i * sr⌋).toNat

/-- Sample index: `end_sample = int(end_time * sr)` (line 109). -/
def end_sample (e : Extracted) (i : ℕ) : ℕ := (⌊end_time e i * sr⌋).toNat

/-- Samples per RMS frame: `rms_per_frame = len(y) / len(rms)` (line 101); only
evaluated when the curve is non-empty (an empty curve raises ZeroDivisionError,
see `analyzeExtracted`). -/
def rms_per_frame (e : Extracted) : ℚ := e.yLen / e.rms.length

/-- Frame index: `start_frame = int(start_sample / rms_per_frame)` (line 113). -/
def start_frame (e : Extracted) (i : ℕ) : ℕ :=
  (⌊(start_sample i : ℚ) / rms_per_frame e⌋).toNat

/-- Frame index: `end_frame = int(end_sample / rms_per_frame)` (line 114). -/
def end_frame (e : Extracted) (i : ℕ) : ℕ :=
  (⌊(end_sample e i : ℚ) / rms_per_frame e⌋).toNat

/-- Curve slice: `segment_rms = rms[start_frame:end_frame]` (line 115), a Python
slice with non-negative bounds. -/
def segment_rms (e : Extracted) (i : ℕ) : List ℚ :=
  (e.rms.drop (start_frame e i)).take (end_frame e i - start_frame e i)

/-- Arithmetic mean, as computed by `np.mean` on a list of rationals. -/
def npMean (l : List ℚ) : ℚ := l.sum / l.length

/-- Maximum, as computed by `np.max`; only ever applied to non-empty lists in
the modelled code (the maximum of `x :: xs`). -/
def npMax (l : List ℚ) : ℚ :=
  match l with
  | [] => 0
  | x :: xs => xs.foldl max x

/-- Per-segment raw energy:
`avg_energy = float(np.mean(segment_rms)) if len(segment_rms) > 0 else 0.5`
(line 116). -/
def avg_energy (e : Extracted) (i : ℕ) : ℚ :=
  if 0 < (segment_rms e i).length then npMean (segment_rms e i) else 1/2

/-- Global divisor: `max_rms = float(np.max(rms)) if np.max(rms) > 0 else 1.0`
(line 119). -/
def max_rms (e : Extracted) : ℚ :=
  if 0 < npMax e.rms then npMax e.rms else 1

/-- Normalization: `normalized_energy = avg_energy / max_rms` (line 120).
Note: the source applies no clamping. -/
def normalized_energy (e : Extracted) (i : ℕ) : ℚ :=
  avg_energy e i / max_rms e

/-- Beats of a block:
`segment_beats = [b for b in beat_times if start_time <= b < end_time]`
(line 123). -/
def segment_beats (e : Extracted) (i : ℕ) : List ℚ :=
  e.beat_times.filter (fun b => decide (start_time i ≤ b ∧ b < end_time e i))

/-- Beat density: `beat_density = len(segment_beats) / segment_duration`
(line 124) — the divisor is the nominal block length `8.0`, not the actual
length of the segment. -/
def beat_density (e : Extracted) (i : ℕ) : ℚ :=
  ((segment_beats e i).length : ℚ) / segment_duration

/-- Intensity classification (lines 127-132): high when the normalized energy
exceeds 0.7, medium when it exceeds 0.4, low otherwise. -/
def intensityOf (ne : ℚ) : String :=
  if ne > 7/10 then "high"
  else if ne > 4/10 then "medium"
  else "low"

/-- Position of a block in the track: `position_ratio = i / num_segments`
(line 135, true division). -/
def position_fraction (e : Extracted) (i : ℕ) : ℚ :=
  (i : ℚ) / (num_segments e : ℚ)

/-- Section inference (lines 136-145), first match wins: below 0.1 intro, above
0.9 outro, energetic and dense chorus, quiet bridge, otherwise verse. -/
def sectionTypeOf (ratio ne density : ℚ) : String :=
  if ratio < 1/10 then "intro"
  else if ratio > 9/10 then "outro"
  else if ne > 6/10 ∧ density > 3/2 then "chorus"
  else if ne < 3/10 then "bridge"
  else "verse"

/-- Round to the nearest integer, ties to even — Python `round` on the exact
rational value. -/
def roundHalfEven (q : ℚ) : ℤ :=
  if q - ⌊q⌋ < 1/2 then ⌊q⌋
  else if 1/2 < q - ⌊q⌋ then ⌊q⌋ + 1
  else if ⌊q⌋ % 2 = 0 then ⌊q⌋ else ⌊q⌋ + 1

/-- Decimal rounding: Python `round(q, n)` on the exact rational value. -/
def pyRound (q : ℚ) (n : ℕ) : ℚ := (roundHalfEven (q * 10 ^ n) : ℚ) / 10 ^ n

/-- One entry of the `segments` list (the dict built at lines 147-156). -/
structure Segment where
  segment_number : ℕ
  start_time : ℚ
  end_time : ℚ
  energy : ℚ
  intensity : String
  beat_density : ℚ
  beats_in_segment : ℕ
  section_type : String
deriving Repr, DecidableEq

/-- The segment dict appended at lines 147-156 for loop index `i`. -/
def mkSegment (e : Extracted) (i : ℕ) : Segment :=
  { segment_number := i + 1
    start_time := pyRound (start_time i) 2
    end_time := pyRound (end_time e i) 2
    energy := pyRound (normalized_energy e i) 3
    intensity := intensityOf (normalized_energy e i)
    beat_density := pyRound (beat_density e i) 2
    beats_in_segment := (segment_beats e i).length
    section_type :=
      sectionTypeOf (position_fraction e i) (normalized_energy e i)
        (beat_density e i) }

/-- The full `segments` list built by the loop at lines 103-156. -/
def analyzeSegments (e : Extracted) : List Segment :=
  (List.range (num_segments e)).map (mkSegment e)

/-- Symbolic standard deviation.  The `energy_variance` dict entry is
`round(float(np.std(rms)), 4)` (line 166); `np.std` is a real square root,
irrational in general, so it is kept symbolic: `lit q` is a rational literal
(the fallback value), `roundedStd l` stands for the rounded population standard
deviation of the curve `l`. -/
inductive StdExpr where
  | lit : ℚ → StdExpr
  | roundedStd : List ℚ → StdExpr
deriving Repr, DecidableEq

/-- The dict returned by `analyze_audio_file` (lines 158-167 on success, lines
173-183 on failure).  The `error` key is present exactly in the fallback dict;
`degraded` below reads it back. -/
structure AnalysisResult where
  duration : ℚ
  tempo : ℚ
  total_beats : ℕ
  beat_times : List ℚ
  num_segments : ℕ
  segments : List Segment
  avg_energy : ℚ
  energy_variance : StdExpr
  error : Option String
deriving Repr, DecidableEq

/-- Fallback runway length: `estimated_duration = 180` (line 172). -/
def estimated_duration : ℚ := 180

/-- The fallback dict built in the `except` handler (lines 171-183):
`num_segments = int(estimated_duration / 8)` and
`total_beats = int(estimated_duration * 2)` truncate the exact values. -/
def fallbackAnalysis (msg : String) : AnalysisResult :=
  { duration := estimated_duration
    tempo := 120
    total_beats := (⌊estimated_duration * 2⌋).toNat
    beat_times := []
    num_segments := (⌊estimated_duration / 8⌋).toNat
    segments := []
    avg_energy := 1/2
    energy_variance := .lit (1/10)
    error := some msg }

/-- Body of the `try` block after a successful extraction.  Two statements can
still raise: `rms_per_frame = len(y) / len(rms)` (line 101) raises
ZeroDivisionError when the curve is empty, and the return dict (line 165)
raises a NameError on `max_rms` when the segment loop never ran
(`num_segments = 0`), because `max_rms` is only assigned inside the loop.
`samples_per_segment` (line 100) and `segment_audio` (line 110) are computed by
the source but never used. -/
def analyzeExtracted (e : Extracted) : Except String AnalysisResult :=
  if e.rms.length = 0 then .error "ZeroDivisionError: division by zero"
  else if num_segments e = 0 then .error "NameError: name max_rms is not defined"
  else .ok
    { duration := pyRound (duration e) 2
      tempo := pyRound e.tempo 1
      total_beats := e.beat_times.length
      beat_times := e.beat_times.take 50
      num_segments := num_segments e
      segments := analyzeSegments e
      avg_energy := pyRound (npMean e.rms / max_rms e) 3
      energy_variance := .roundedStd e.rms
      error := none }

/-- Embedding of `analyze_audio_file` (lines 67-183).  The extractor call is
the black-box boundary: its outcome is the `Except` input.  Every exception —
from extraction or from the body — lands in the `except` handler, which returns
the fallback dict carrying the stringified error; the function is total, so no
exception crosses the public boundary. -/
def analyze_audio_file (x : Except String Extracted) : AnalysisResult :=
  match x with
  | .error msg => fallbackAnalysis msg
  | .ok e =>
    match analyzeExtracted e with
    | .error msg => fallbackAnalysis msg
    | .ok r => r

/-- Degradation flag of the spec: the returned dict signals degradation exactly
by carrying the `error` diagnostic entry (present only in the fallback dict). -/
def degraded (r : AnalysisResult) : Bool := r.error.isSome

/-- Frame width of the energy curve:
`frame_width = duration / len(energy_curve)` (spec sections 3 and 4.1). -/
def frame_width (e : Extracted) : ℚ := duration e / e.rms.length

/-- Modelled from the spec (section 4.1, fixed as policy by section 9):
`raw_energy` is the arithmetic mean of the energy values whose frame — frame
`j` spanning the half-open interval from `j * frame_width` to
`(j+1) * frame_width` — intersects the half-open time range of the segment.
This is the spec-side definition compared against `avg_energy` of the source. -/
def spec_raw_energy (e : Extracted) (i : ℕ) : ℚ :=
  npMean (((List.range e.rms.length).filter
    (fun j : ℕ => decide ((j : ℚ) * frame_width e < end_time e i ∧
      start_time i < ((j : ℚ) + 1) * frame_width e))).map
    (fun j : ℕ => e.rms.getD j 0))

/-! ## Helper lemmas -/

/-- The duration is never negative (a waveform length divided by the rate). -/
lemma duration_nonneg (e : Extracted) : 0 ≤ duration e := by
  rw [duration, sr]
  positivity

/-- The block length is positive. -/
lemma segment_duration_pos : (0:ℚ) < segment_duration := by
  norm_num [segment_duration]

/-- The block count, cast to an integer, is the ceiling it truncates. -/
lemma num_segments_cast (e : Extracted) :
    (num_segments e : ℤ) = ⌈duration e / segment_duration⌉ := by
  rw [num_segments]
  exact Int.toNat_of_nonneg
    (Int.ceil_nonneg (div_nonneg (duration_nonneg e) segment_duration_pos.le))

/-- Folding max never goes below the seed. -/
lemma le_foldl_max (a : ℚ) (l : List ℚ) : a ≤ l.foldl max a := by
  induction l generalizing a with
  | nil => exact le_refl a
  | cons x xs ih => exact le_trans (le_max_left a x) (ih (max a x))

/-- Folding max dominates every element of the list. -/
lemma mem_le_foldl_max (a : ℚ) (l : List ℚ) : ∀ x ∈ l, x ≤ l.foldl max a := by
  induction l generalizing a with
  | nil => intro x hx; cases hx
  | cons y ys ih =>
    intro x hx
    rcases List.mem_cons.mp hx with h | h
    · subst h
      exact le_trans (le_max_right a x) (le_foldl_max (max a x) ys)
    · exact ih (max a y) x h

/-- Every list element is bounded by `npMax`. -/
lemma mem_le_npMax (l : List ℚ) : ∀ x ∈ l, x ≤ npMax l := by
  intro x hx
  cases l with
  | nil => cases hx
  | cons y ys =>
    rcases List.mem_cons.mp hx with h | h
    · subst h
      exact le_foldl_max x ys
    · exact mem_le_foldl_max y ys x h

/-- Every value in a curve slice comes from the curve. -/
lemma mem_segment_rms_sub (e : Extracted) (i : ℕ) :
    ∀ x ∈ segment_rms e i, x ∈ e.rms := by
  intro x hx
  exact List.mem_of_mem_drop (List.mem_of_mem_take hx)

/-- The normalization divisor is positive in both branches. -/
lemma max_rms_pos (e : Extracted) : 0 < max_rms e := by
  rw [max_rms]
  split_ifs with h
  · exact h
  · norm_num

/-- Raw segment energy is non-negative on a non-negative curve. -/
lemma avg_energy_nonneg (e : Extracted) (i : ℕ)
    (hpos : ∀ x ∈ e.rms, 0 ≤ x) : 0 ≤ avg_energy e i := by
  rw [avg_energy]
  split_ifs with h
  · refine div_nonneg ?_ (by positivity)
    exact List.sum_nonneg fun x hx => hpos x (mem_segment_rms_sub e i x hx)
  · norm_num

/-! ## Concrete evaluation lemmas

Evaluation facts for three concrete extractor outputs used by the claims:
a 4-second track with four beats and a unit curve, a 16-second track whose
one-frame curve `[1/10]` makes the frame slice of segment 0 empty, and a
10-second track with the three-frame curve `[0, 0, 3]`. -/

lemma c3e_end : end_time ⟨88200, 120, [0, 1, 2, 3], [1]⟩ 0 = 4 := by
  norm_num [end_time, duration, sr, segment_duration, min_def]

lemma c3e_beats : segment_beats ⟨88200, 120, [0, 1, 2, 3], [1]⟩ 0 = [0, 1, 2, 3] := by
  simp only [segment_beats, c3e_end]
  norm_num [start_time, segment_duration, List.filter]

lemma eval16_start_frame : start_frame ⟨352800, 120, [], [1/10]⟩ 0 = 0 := by
  have hss : start_sample 0 = 0 := by
    norm_num [start_sample, start_time, segment_duration, sr]
  rw [start_frame, hss]
  norm_num [rms_per_frame]

lemma eval16_end_frame : end_frame ⟨352800, 120, [], [1/10]⟩ 0 = 0 := by
  have hes : end_sample ⟨352800, 120, [], [1/10]⟩ 0 = 176400 := by
    have he : end_time ⟨352800, 120, [], [1/10]⟩ 0 = 8 := by
      norm_num [end_time, duration, sr, segment_duration, min_def]
    rw [end_sample, he]
    norm_num [sr]
    rfl
  rw [end_frame, hes, rms_per_frame]
  norm_num

lemma eval16_seg_rms : segment_rms ⟨352800, 120, [], [1/10]⟩ 0 = [] := by
  rw [segment_rms, eval16_start_frame, eval16_end_frame]
  rfl

lemma eval16_avg : avg_energy ⟨352800, 120, [], [1/10]⟩ 0 = 1/2 := by
  rw [avg_energy, eval16_seg_rms]
  rfl

lemma eval16_max : max_rms ⟨352800, 120, [], [1/10]⟩ = 1/10 := by
  rw [max_rms]
  norm_num [npMax]

lemma eval16_seg_rms1 : segment_rms ⟨352800, 120, [], [1/10]⟩ 1 = [1/10] := by
  have hsf : start_frame ⟨352800, 120, [], [1/10]⟩ 1 = 0 := by
    have hss : start_sample 1 = 176400 := by
      rw [start_sample, start_time]
      norm_num [segment_duration, sr]
      rfl
    rw [start_frame, hss, rms_per_frame]
    norm_num
  have hef : end_frame ⟨352800, 120, [], [1/10]⟩ 1 = 1 := by
    have hes : end_sample ⟨352800, 120, [], [1/10]⟩ 1 = 352800 := by
      have he : end_time ⟨352800, 120, [], [1/10]⟩ 1 = 16 := by
        norm_num [end_time, duration, sr, segment_duration, min_def]
      rw [end_sample, he]
      norm_num [sr]
      rfl
    rw [end_frame, hes, rms_per_frame]
    norm_num
  rw [segment_rms, hsf, hef]
  rfl

lemma c7e_end : end_time ⟨220500, 120, [], [0, 0, 3]⟩ 0 = 8 := by
  norm_num [end_time, duration, sr, segment_duration, min_def]

lemma c7e_start_frame : start_frame ⟨220500, 120, [], [0, 0, 3]⟩ 0 = 0 := by
  have hss : start_sample 0 = 0 := by
    norm_num [start_sample, start_time, segment_duration, sr]
  rw [start_frame, hss]
  norm_num [rms_per_frame]

lemma c7e_end_frame : end_frame ⟨220500, 120, [], [0, 0, 3]⟩ 0 = 2 := by
  have hes : end_sample ⟨220500, 120, [], [0, 0, 3]⟩ 0 = 176400 := by
    rw [end_sample, c7e_end]
    norm_num [sr]
    rfl
  rw [end_frame, hes, rms_per_frame]
  norm_num
  rfl

lemma c7e_avg : avg_energy ⟨220500, 120, [], [0, 0, 3]⟩ 0 = 0 := by
  have hsr : segment_rms ⟨220500, 120, [], [0, 0, 3]⟩ 0 = [0, 0] := by
    rw [segment_rms, c7e_start_frame, c7e_end_frame]
    rfl
  rw [avg_energy, hsr]
  norm_num [npMean]

lemma c7e_spec : spec_raw_energy ⟨220500, 120, [], [0, 0, 3]⟩ 0 = 1 := by
  have hfw : frame_width ⟨220500, 120, [], [0, 0, 3]⟩ = 10/3 := by
    norm_num [frame_width, duration, sr]
  rw [spec_raw_energy, hfw, c7e_end]
  norm_num [start_time, segment_duration, List.filter, List.range_succ, npMean]

/-! ## Claim theorems -/

/-- C1: on every extraction failure, `analyze_audio_file` does not raise (it is
a total function) and returns the degraded fallback with duration 180.0, tempo
120.0, empty segments, the degraded flag set, and the triggering error captured
as diagnostic text only. -/
theorem c1_extraction_failure_degrades (msg : String) :
    (analyze_audio_file (.error msg)).duration = 180 ∧
    (analyze_audio_file (.error msg)).tempo = 120 ∧
    (analyze_audio_file (.error msg)).segments = [] ∧
    degraded (analyze_audio_file (.error msg)) = true ∧
    (analyze_audio_file (.error msg)).error = some msg :=
  ⟨rfl, rfl, rfl, rfl, rfl⟩

/-- C2: for positive duration the segment count equals the ceiling of
duration over block length, block `i` starts at `i * 8` and ends at
`min((i+1) * 8, duration)`, consecutive blocks are contiguous, the blocks are
non-empty and cover the half-open range from 0 to the duration exactly once
(no gaps, no overlaps), and a zero duration yields zero returned segments. -/
theorem c2_segments_tile (e : Extracted) :
    (0 < duration e →
      (analyzeSegments e).length = Int.toNat ⌈duration e / segment_duration⌉ ∧
      0 < num_segments e ∧
      (∀ i, i < num_segments e →
        start_time i = i * segment_duration ∧
        end_time e i = min ((i + 1) * segment_duration) (duration e) ∧
        start_time i < end_time e i) ∧
      (∀ i, i + 1 < num_segments e → end_time e i = start_time (i + 1)) ∧
      end_time e (num_segments e - 1) = duration e ∧
      start_time 0 = 0 ∧
      (∀ t : ℚ, 0 ≤ t → t < duration e →
        ∃! i : ℕ, i < num_segments e ∧ start_time i ≤ t ∧ t < end_time e i)) ∧
    (duration e = 0 →
      analyzeSegments e = [] ∧ (analyze_audio_file (.ok e)).segments = []) := by
  have hsd := segment_duration_pos
  have hcast := num_segments_cast e
  constructor
  · intro hd
    have hlt : ∀ i : ℕ, i < num_segments e →
        (i : ℚ) < duration e / segment_duration := by
      intro i hi
      have h1 : (i : ℤ) < ⌈duration e / segment_duration⌉ := by
        rw [← hcast]
        exact_mod_cast hi
      exact_mod_cast Int.lt_ceil.mp h1
    have hle : duration e / segment_duration ≤ (num_segments e : ℚ) := by
      have h1 := Int.le_ceil (duration e / segment_duration)
      rw [← hcast] at h1
      exact_mod_cast h1
    have hpos : 0 < num_segments e := by
      by_contra h
      push_neg at h
      have hz : num_segments e = 0 := Nat.le_zero.mp h
      rw [hz] at hle
      have := div_pos hd hsd
      norm_num at hle
      linarith
    have hstartlt : ∀ i : ℕ, i < num_segments e →
        (i : ℚ) * segment_duration < duration e := by
      intro i hi
      exact (lt_div_iff₀ hsd).mp (hlt i hi)
    refine ⟨by simp [analyzeSegments, num_segments], hpos, ?_, ?_, ?_,
      by simp [start_time], ?_⟩
    · intro i hi
      refine ⟨rfl, rfl, ?_⟩
      rw [start_time, end_time, lt_min_iff]
      constructor
      · nlinarith [hsd]
      · exact hstartlt i hi
    · intro i hi
      have h1 : ((i:ℚ) + 1) * segment_duration < duration e := by
        have := hstartlt (i + 1) hi
        push_cast at this
        linarith
      rw [end_time, start_time, min_eq_left h1.le]
      push_cast
      ring
    · have hsub : ((num_segments e - 1 : ℕ) : ℚ) + 1 = (num_segments e : ℚ) := by
        have h1 : num_segments e - 1 + 1 = num_segments e :=
          Nat.succ_pred_eq_of_pos hpos
        exact_mod_cast congrArg (fun k : ℕ => (k : ℚ)) h1
      have hdle : duration e ≤ (num_segments e : ℚ) * segment_duration :=
        (div_le_iff₀ hsd).mp hle
      rw [end_time, hsub, min_eq_right hdle]
    · intro t ht0 htd
      have hj0 : 0 ≤ ⌊t / segment_duration⌋ :=
        Int.floor_nonneg.mpr (div_nonneg ht0 hsd.le)
      have hjq : ((⌊t / segment_duration⌋.toNat : ℕ) : ℚ) =
          ((⌊t / segment_duration⌋ : ℤ) : ℚ) := by
        exact_mod_cast congrArg (fun z : ℤ => (z : ℚ)) (Int.toNat_of_nonneg hj0)
      have hfle : ((⌊t / segment_duration⌋ : ℤ) : ℚ) ≤ t / segment_duration :=
        Int.floor_le _
      have hflt : t / segment_duration < ((⌊t / segment_duration⌋ : ℤ) : ℚ) + 1 :=
        Int.lt_floor_add_one _
      have htdiv : t / segment_duration < duration e / segment_duration :=
        div_lt_div_of_pos_right htd hsd
      refine ⟨⌊t / segment_duration⌋.toNat, ⟨?_, ?_, ?_⟩, ?_⟩
      · have h1 : ⌊t / segment_duration⌋ < ⌈duration e / segment_duration⌉ := by
          have h2 := Int.le_ceil (duration e / segment_duration)
          have h3 : ((⌊t / segment_duration⌋ : ℤ) : ℚ) <
              ((⌈duration e / segment_duration⌉ : ℤ) : ℚ) := by linarith
          exact_mod_cast h3
        rw [← hcast] at h1
        omega
      · rw [start_time, hjq]
        exact (le_div_iff₀ hsd).mp hfle
      · rw [end_time, lt_min_iff]
        refine ⟨?_, htd⟩
        rw [hjq]
        exact (div_lt_iff₀ hsd).mp hflt
      · rintro k ⟨hk, hks, hke⟩
        rw [start_time] at hks
        rw [end_time, lt_min_iff] at hke
        have hks2 : (k : ℚ) ≤ t / segment_duration := (le_div_iff₀ hsd).mpr hks
        have hke2 : t / segment_duration < (k : ℚ) + 1 := by
          have h1 := hke.1
          rw [div_lt_iff₀ hsd]
          linarith
        have hfeq : ⌊t / segment_duration⌋ = (k : ℤ) := by
          rw [Int.floor_eq_iff]
          constructor
          · exact_mod_cast hks2
          · push_cast
            exact hke2
        omega
  · intro hdz
    have hn0 : num_segments e = 0 := by
      simp [num_segments, hdz]
    have hseg : analyzeSegments e = [] := by
      simp [analyzeSegments, hn0]
    refine ⟨hseg, ?_⟩
    by_cases hr : e.rms.length = 0
    · simp [analyze_audio_file, analyzeExtracted, hr, fallbackAnalysis]
    · simp [analyze_audio_file, analyzeExtracted, hr, hn0, fallbackAnalysis]

/-- C2 witness: on the 10-second track the block list has the ceiling length
and the time point 9 lies in exactly one block. -/
theorem c2_segments_tile_witness :
    (analyzeSegments ⟨220500, 120, [], [1, 1, 1]⟩).length =
      Int.toNat ⌈duration ⟨220500, 120, [], [1, 1, 1]⟩ / segment_duration⌉ ∧
    (∃! i : ℕ, i < num_segments ⟨220500, 120, [], [1, 1, 1]⟩ ∧
      start_time i ≤ 9 ∧ (9:ℚ) < end_time ⟨220500, 120, [], [1, 1, 1]⟩ i) :=
  ⟨((c2_segments_tile ⟨220500, 120, [], [1, 1, 1]⟩).1
      (by norm_num [duration, sr])).1,
   ((c2_segments_tile ⟨220500, 120, [], [1, 1, 1]⟩).1
      (by norm_num [duration, sr])).2.2.2.2.2.2 9 (by norm_num)
      (by norm_num [duration, sr])⟩

/-- C3 counterexample: on a 4-second track (one truncated block of actual
length 4) with beats at 0, 1, 2, 3, the source computes a beat density of
4 / 8 = 0.5, not 4 / (end - start) = 1 as the claim states. -/
theorem c3_density_cex :
    beat_density ⟨88200, 120, [0, 1, 2, 3], [1]⟩ 0 = 1/2 ∧
    ((segment_beats ⟨88200, 120, [0, 1, 2, 3], [1]⟩ 0).length : ℚ) /
      (end_time ⟨88200, 120, [0, 1, 2, 3], [1]⟩ 0 - start_time 0) = 1 ∧
    beat_density ⟨88200, 120, [0, 1, 2, 3], [1]⟩ 0 ≠
      ((segment_beats ⟨88200, 120, [0, 1, 2, 3], [1]⟩ 0).length : ℚ) /
        (end_time ⟨88200, 120, [0, 1, 2, 3], [1]⟩ 0 - start_time 0) := by
  have h1 : beat_density ⟨88200, 120, [0, 1, 2, 3], [1]⟩ 0 = 1/2 := by
    rw [beat_density, c3e_beats]
    norm_num [segment_duration]
  have h2 : ((segment_beats ⟨88200, 120, [0, 1, 2, 3], [1]⟩ 0).length : ℚ) /
      (end_time ⟨88200, 120, [0, 1, 2, 3], [1]⟩ 0 - start_time 0) = 1 := by
    rw [c3e_beats, c3e_end]
    norm_num [start_time, segment_duration]
  exact ⟨h1, h2, by rw [h1, h2]; norm_num⟩

/-- C3 amended: the beat count of every segment is the number of beat
timestamps inside the half-open block range, and the beat density divides that
count by the nominal block length 8.0 — also for the truncated final block. -/
theorem c3_beats_amended (e : Extracted) (i : ℕ) :
    (mkSegment e i).beats_in_segment =
      e.beat_times.countP (fun b => decide (start_time i ≤ b ∧ b < end_time e i)) ∧
    beat_density e i = ((mkSegment e i).beats_in_segment : ℚ) / segment_duration := by
  refine ⟨?_, rfl⟩
  rw [List.countP_eq_length_filter]
  rfl

/-- C4 counterexample: on the 16-second track with curve `[1/10]`, segment 0
has an empty frame slice, so the default 0.5 is divided by the global maximum
0.1, giving a normalized energy of 5 — the claimed clamp to at most 1 does not
exist in the source. -/
theorem c4_clamp_cex :
    normalized_energy ⟨352800, 120, [], [1/10]⟩ 0 = 5 ∧
    ¬ normalized_energy ⟨352800, 120, [], [1/10]⟩ 0 ≤ 1 := by
  have h : normalized_energy ⟨352800, 120, [], [1/10]⟩ 0 = 5 := by
    rw [normalized_energy, eval16_avg, eval16_max]
    norm_num
  exact ⟨h, by rw [h]; norm_num⟩

/-- C4 amended: the normalized energy is the raw energy divided by the global
maximum of the curve (1.0 when the maximum is not positive), it is never
negative on a non-negative curve, and it is at most 1 whenever the frame slice
of the segment is non-empty; no clamping is applied, and the bound of 1 can
fail only for an empty slice (where the fallback 0.5 exceeds a global maximum
below 0.5). -/
theorem c4_normalization_amended (e : Extracted) (i : ℕ)
    (hpos : ∀ x ∈ e.rms, 0 ≤ x) :
    normalized_energy e i = avg_energy e i / max_rms e ∧
    0 ≤ normalized_energy e i ∧
    (segment_rms e i ≠ [] → normalized_energy e i ≤ 1) := by
  refine ⟨rfl, ?_, ?_⟩
  · exact div_nonneg (avg_energy_nonneg e i hpos) (max_rms_pos e).le
  · intro hne
    have hlen : 0 < (segment_rms e i).length := List.length_pos.mpr hne
    have havg : avg_energy e i = npMean (segment_rms e i) := by
      rw [avg_energy, if_pos hlen]
    have hmean : npMean (segment_rms e i) ≤ npMax e.rms := by
      rw [npMean]
      rw [div_le_iff₀ (by exact_mod_cast hlen)]
      calc (segment_rms e i).sum
          ≤ (segment_rms e i).length • npMax e.rms := by
            refine List.sum_le_card_nsmul _ _ ?_
            exact fun x hx => mem_le_npMax e.rms x (mem_segment_rms_sub e i x hx)
        _ = npMax e.rms * (segment_rms e i).length := by
            rw [nsmul_eq_mul, mul_comm]
    rw [normalized_energy, havg, max_rms]
    split_ifs with h
    · rw [div_le_one h]
      exact hmean
    · rw [div_one]
      have h0 : npMax e.rms ≤ 0 := not_lt.mp h
      linarith

/-- C4 witness: segment 1 of the 16-second track has a non-empty frame slice
and its normalized energy lies in the unit range. -/
theorem c4_normalization_amended_witness :
    0 ≤ normalized_energy ⟨352800, 120, [], [1/10]⟩ 1 ∧
    normalized_energy ⟨352800, 120, [], [1/10]⟩ 1 ≤ 1 :=
  ⟨(c4_normalization_amended ⟨352800, 120, [], [1/10]⟩ 1 (by norm_num)).2.1,
   (c4_normalization_amended ⟨352800, 120, [], [1/10]⟩ 1 (by norm_num)).2.2
     (by rw [eval16_seg_rms1]; exact List.cons_ne_nil _ _)⟩

/-- C5: the intensity tier of every segment is computed from the unrounded
normalized energy, with high exactly above 0.7, medium exactly above 0.4 and up
to 0.7, low otherwise; the boundary values 0.7 and 0.4 fall into the lower
tiers. -/
theorem c5_intensity_thresholds :
    (∀ (e : Extracted) (i : ℕ),
      (mkSegment e i).intensity = intensityOf (normalized_energy e i)) ∧
    (∀ ne : ℚ,
      (intensityOf ne = "high" ↔ 7/10 < ne) ∧
      (intensityOf ne = "medium" ↔ 4/10 < ne ∧ ne ≤ 7/10) ∧
      (intensityOf ne = "low" ↔ ne ≤ 4/10)) ∧
    intensityOf (7/10) = "medium" ∧ intensityOf (4/10) = "low" := by
  refine ⟨fun e i => rfl, fun ne => ?_, by norm_num [intensityOf],
    by norm_num [intensityOf]⟩
  unfold intensityOf
  rcases lt_or_le (7/10 : ℚ) ne with h7 | h7
  · rw [if_pos (show ne > 7/10 from h7)]
    refine ⟨by simp [h7], ?_, ?_⟩
    · simp only [show ("high" : String) ≠ "medium" by decide, false_iff]
      rintro ⟨-, hle⟩
      exact absurd h7 (not_lt.mpr hle)
    · simp only [show ("high" : String) ≠ "low" by decide, false_iff]
      intro hle
      exact absurd h7 (not_lt.mpr (hle.trans (by norm_num)))
  · rw [if_neg (not_lt.mpr h7)]
    rcases lt_or_le (4/10 : ℚ) ne with h4 | h4
    · rw [if_pos (show ne > 4/10 from h4)]
      refine ⟨?_, by simp [h4, h7], ?_⟩
      · simp only [show ("medium" : String) ≠ "high" by decide, false_iff, not_lt]
        exact h7
      · simp only [show ("medium" : String) ≠ "low" by decide, false_iff, not_le]
        exact h4
    · rw [if_neg (not_lt.mpr h4)]
      refine ⟨?_, ?_, by simp [h4]⟩
      · simp only [show ("low" : String) ≠ "high" by decide, false_iff, not_lt]
        exact h4.trans (by norm_num)
      · simp only [show ("low" : String) ≠ "medium" by decide, false_iff, not_and]
        intro hlt
        exact absurd h4 (not_le.mpr hlt)

/-- C6: the section label of every segment is the first matching rule of the
ordered list over the position fraction, and in particular the fraction 0 (for
example index 0 of 10) always gives intro while the fraction 9/10 (index 9 of
10) never gives outro, since 9/10 is not strictly greater than 9/10. -/
theorem c6_section_rules :
    (∀ (e : Extracted) (i : ℕ),
      (mkSegment e i).section_type =
        sectionTypeOf (position_fraction e i) (normalized_energy e i)
          (beat_density e i)) ∧
    (∀ r ne d : ℚ,
      (sectionTypeOf r ne d = "intro" ↔ r < 1/10) ∧
      (sectionTypeOf r ne d = "outro" ↔ ¬ r < 1/10 ∧ 9/10 < r) ∧
      (sectionTypeOf r ne d = "chorus" ↔
        ¬ r < 1/10 ∧ ¬ 9/10 < r ∧ (6/10 < ne ∧ 3/2 < d)) ∧
      (sectionTypeOf r ne d = "bridge" ↔
        ¬ r < 1/10 ∧ ¬ 9/10 < r ∧ ¬ (6/10 < ne ∧ 3/2 < d) ∧ ne < 3/10) ∧
      (sectionTypeOf r ne d = "verse" ↔
        ¬ r < 1/10 ∧ ¬ 9/10 < r ∧ ¬ (6/10 < ne ∧ 3/2 < d) ∧ ¬ ne < 3/10)) ∧
    (∀ ne d : ℚ, sectionTypeOf ((0:ℚ)/10) ne d = "intro") ∧
    (∀ ne d : ℚ, sectionTypeOf ((9:ℚ)/10) ne d ≠ "outro") := by
  refine ⟨fun e i => rfl, fun r ne d => ?_, fun ne d => ?_, fun ne d => ?_⟩
  · unfold sectionTypeOf
    split_ifs with h1 h2 h3 h4 <;> refine ⟨?_, ?_, ?_, ?_, ?_⟩ <;> simp_all
  · unfold sectionTypeOf
    rw [if_pos (by norm_num : ((0:ℚ)/10) < 1/10)]
  · unfold sectionTypeOf
    rw [if_neg (by norm_num : ¬ ((9:ℚ)/10) < 1/10),
      if_neg (by norm_num : ¬ ((9:ℚ)/10) > 9/10)]
    split_ifs <;> simp

/-- C7: the spec fixes the energy aggregation policy as the mean over the
frames intersecting the half-open block range and calls any other reading in
the source a bug.  On the 10-second track with curve `[0, 0, 3]`, segment 0
covers the range up to 8, which intersects frames 0, 1 and 2, yet the source
slices frames 0 and 1 only: the code yields 0 where the spec policy yields 1. -/
theorem c7_frame_mapping_bug :
    avg_energy ⟨220500, 120, [], [0, 0, 3]⟩ 0 = 0 ∧
    spec_raw_energy ⟨220500, 120, [], [0, 0, 3]⟩ 0 = 1 ∧
    avg_energy ⟨220500, 120, [], [0, 0, 3]⟩ 0 ≠
      spec_raw_energy ⟨220500, 120, [], [0, 0, 3]⟩ 0 := by
  refine ⟨c7e_avg, c7e_spec, ?_⟩
  rw [c7e_avg, c7e_spec]
  norm_num

/-- C8 counterexample: on the 16-second track with curve `[1/10]`, segment 0
has an empty frame slice and the source defaults its raw energy to the literal
0.5 — not to half the global maximum (which would be 0.05). -/
theorem c8_default_cex :
    segment_rms ⟨352800, 120, [], [1/10]⟩ 0 = [] ∧
    avg_energy ⟨352800, 120, [], [1/10]⟩ 0 = 1/2 ∧
    avg_energy ⟨352800, 120, [], [1/10]⟩ 0 ≠
      1/2 * npMax (Extracted.rms ⟨352800, 120, [], [1/10]⟩) := by
  refine ⟨eval16_seg_rms, eval16_avg, ?_⟩
  rw [eval16_avg]
  norm_num [npMax]

/-- C8 amended: a segment with an empty frame slice gets the literal raw energy
0.5 regardless of the global maximum, and an entirely empty energy curve makes
the body raise internally so that the call returns the degraded fallback
(no per-segment default and no escaping exception). -/
theorem c8_default_amended (e : Extracted) (i : ℕ) :
    (segment_rms e i = [] → avg_energy e i = 1/2) ∧
    (e.rms = [] →
      analyze_audio_file (.ok e) =
        fallbackAnalysis "ZeroDivisionError: division by zero") := by
  constructor
  · intro h
    rw [avg_energy, h]
    rfl
  · intro h
    rw [analyze_audio_file, analyzeExtracted]
    rw [if_pos (by rw [h]; rfl)]

/-- C8 witness: the empty-slice default 0.5 on the 16-second track, and the
fallback result on an empty curve. -/
theorem c8_default_amended_witness :
    avg_energy ⟨352800, 120, [], [1/10]⟩ 0 = 1/2 ∧
    analyze_audio_file (.ok ⟨0, 120, [], ([] : List ℚ)⟩) =
      fallbackAnalysis "ZeroDivisionError: division by zero" :=
  ⟨(c8_default_amended ⟨352800, 120, [], [1/10]⟩ 0).1 eval16_seg_rms,
   (c8_default_amended ⟨0, 120, [], ([] : List ℚ)⟩ 0).2 rfl⟩

/-- C9: the pipeline is deterministic — two runs on identical extractor output
produce identical analysis records, field for field. -/
theorem c9_determinism (e1 e2 : Extracted) (r1 r2 : AnalysisResult)
    (h : e1 = e2)
    (h1 : r1 = analyze_audio_file (.ok e1))
    (h2 : r2 = analyze_audio_file (.ok e2)) :
    r1 = r2 ∧
    r1.duration = r2.duration ∧ r1.tempo = r2.tempo ∧
    r1.total_beats = r2.total_beats ∧ r1.beat_times = r2.beat_times ∧
    r1.num_segments = r2.num_segments ∧ r1.segments = r2.segments ∧
    r1.avg_energy = r2.avg_energy ∧ r1.energy_variance = r2.energy_variance ∧
    r1.error = r2.error := by
  subst h h1 h2
  exact ⟨rfl, rfl, rfl, rfl, rfl, rfl, rfl, rfl, rfl, rfl⟩

/-- C9 witness: two runs on the 4-second track agree. -/
theorem c9_determinism_witness :
    analyze_audio_file (.ok ⟨88200, 120, [0, 1, 2, 3], [1]⟩) =
      analyze_audio_file (.ok ⟨88200, 120, [0, 1, 2, 3], [1]⟩) :=
  (c9_determinism ⟨88200, 120, [0, 1, 2, 3], [1]⟩ ⟨88200, 120, [0, 1, 2, 3], [1]⟩
    (analyze_audio_file (.ok ⟨88200, 120, [0, 1, 2, 3], [1]⟩))
    (analyze_audio_file (.ok ⟨88200, 120, [0, 1, 2, 3], [1]⟩)) rfl rfl rfl).1

/-- C10: the fallback record reports 22 segments (the truncation of 180 / 8)
while the ceiling is 23, carries an empty segment list despite its positive
duration 180, and reports 360 total beats, average energy 0.5 and energy
variance 0.1. -/
theorem c10_fallback_shape (msg : String) :
    (fallbackAnalysis msg).num_segments = 22 ∧
    Int.toNat ⌈(fallbackAnalysis msg).duration / segment_duration⌉ = 23 ∧
    (fallbackAnalysis msg).num_segments ≠
      Int.toNat ⌈(fallbackAnalysis msg).duration / segment_duration⌉ ∧
    (fallbackAnalysis msg).segments = [] ∧
    0 < (fallbackAnalysis msg).duration ∧
    (fallbackAnalysis msg).total_beats = 360 ∧
    (fallbackAnalysis msg).avg_energy = 1/2 ∧
    (fallbackAnalysis msg).energy_variance = StdExpr.lit (1/10) := by
  have hs : (⌊estimated_duration / 8⌋).toNat = 22 := by
    rw [show ⌊estimated_duration / 8⌋ = 22 by norm_num [estimated_duration]]
    rfl
  have hc : Int.toNat ⌈estimated_duration / segment_duration⌉ = 23 := by
    rw [show ⌈estimated_duration / segment_duration⌉ = 23 by
      rw [Int.ceil_eq_iff]
      constructor <;> norm_num [estimated_duration, segment_duration]]
    rfl
  refine ⟨hs, hc, ?_, rfl, by norm_num [fallbackAnalysis, estimated_duration],
    ?_, rfl, rfl⟩
  · show (⌊estimated_duration / 8⌋).toNat ≠
      Int.toNat ⌈estimated_duration / segment_duration⌉
    rw [hs, hc]
    norm_num
  · show (⌊estimated_duration * 2⌋).toNat = 360
    rw [show ⌊estimated_duration * 2⌋ = 360 by norm_num [estimated_duration]]
    rfl

end LyricSinMotion
